import Mathlib

/-!
# Verification of the deployment-step / cacheable-builder engine

Shallow embedding of `agent_build/tools/environment_deployments/deployments.py`:
the `DeploymentStep` checksum and run logic, the step cache, and the
`CacheableBuilder` build dispatch.  File contents and path strings are
modelled as lists of naturals (byte values); the SHA-256 hash is abstracted
as a function parameter `h` on the byte stream fed to the hasher, together
with the string-to-bytes encoding `enc` used when a digest string is itself
hashed.
-/

namespace Deployments

/-- A root-relative file path, identified with the byte encoding of its
string form (the code hashes `str(path.relative_to(SOURCE_ROOT)).encode()`). -/
abbrev FsPath := List Nat

/-- Byte content of every file, indexed by root-relative path. -/
abbrev FileSys := FsPath → List Nat

/-- UTF-8-like byte encoding of a string (`str.encode()` in the source). -/
def strBytes (s : String) : List Nat := s.toList.map Char.toNat

/-- Lexicographic order on byte lists, the stable sort order used for the
resolved tracked files and the environment-variable keys. -/
def lexLe : List Nat → List Nat → Bool
  | [], _ => true
  | _ :: _, [] => false
  | x :: xs, y :: ys =>
    if x < y then true
    else if x = y then lexLe xs ys
    else false

/-- Modelled from the spec: glob resolution of `FilesChecksumTracker`
(`agent_build/tools/files_checksum_tracker.py`, not present in the sources):
a glob pattern is represented by the list of root-relative files it resolves
to. -/
abbrev TrackedGlob := List FsPath

/-- Modelled from the spec: the resolved `_original_files` list — all files
matched by the declared glob patterns, deduplicated and in a stable sort
order, so that the resolved set is order-independent in the declared
patterns. -/
def resolveTrackedFiles (globs : List TrackedGlob) : List FsPath :=
  List.insertionSort (fun a b => lexLe a b = true) globs.flatten.dedup

/-- The constructor arguments of `DeploymentStep` that matter for identity:
`name`, `tracked_file_globs`, `environment_variables`, `cacheable`. -/
structure StepData where
  name : String
  trackedFileGlobs : List TrackedGlob
  environmentVariables : List (String × String)
  cacheable : Bool
deriving DecidableEq

/-- A `DeploymentStep` together with its `previous_step` argument, which in the
source is `None`, a base docker image name (a string), or another step. -/
inductive Step where
  /-- `previous_step is None`: no predecessor and no base docker image. -/
  | first (d : StepData)
  /-- `previous_step` is a string: a base docker image, no predecessor step. -/
  | onImage (d : StepData) (image : String)
  /-- `previous_step` is another `DeploymentStep`. -/
  | onStep (d : StepData) (previous : Step)
deriving DecidableEq

def Step.data : Step → StepData
  | .first d => d
  | .onImage d _ => d
  | .onStep d _ => d

def Step.name (s : Step) : String := s.data.name

/-- `DeploymentStep.initial_docker_image`: the base image of the bottom of the
`previous_step` chain. -/
def Step.initialDockerImage : Step → Option String
  | .first _ => none
  | .onImage _ image => some image
  | .onStep _ previous => previous.initialDockerImage

/-- `DeploymentStep.runs_in_docker`: the step runs in docker iff the initial
docker image is set. -/
def Step.runsInDocker (s : Step) : Bool := s.initialDockerImage.isSome

/-- The byte stream fed to the hasher for the tracked files: for each file,
the root-relative path followed by the file's content
(`sha256.update(str(file_path.relative_to(SOURCE_ROOT)).encode())` then
`sha256.update(file_path.read_bytes())`). -/
def fileStream (fs : FileSys) : List FsPath → List Nat
  | [] => []
  | p :: rest => p ++ fs p ++ fileStream fs rest

/-- The byte stream of the sorted environment variables
(`sha256.update(name.encode()); sha256.update(value.encode())`). -/
def envStream (env : List (String × String)) : List Nat :=
  (env.insertionSort (fun a b => lexLe (strBytes a.1) (strBytes b.1) = true)).foldl
    (fun acc kv => acc ++ strBytes kv.1 ++ strBytes kv.2) []

/-- `DeploymentStep.checksum`.  The source seeds a SHA-256 hasher with the
previous step's checksum and the sorted environment variables, but then
rebinds the `sha256` variable to a fresh hasher
(`sha256 = hashlib.sha256()`, line 211) before hashing the tracked files,
so the digest that is returned covers only the tracked files' relative
paths and contents; `discarded` below is the stream fed to the first,
discarded hasher.  `h` abstracts SHA-256 (`hexdigest` of the byte stream)
and `enc` abstracts `str.encode` applied to a digest. -/
def Step.checksum {α : Type} (h : List Nat → α) (enc : α → List Nat)
    (fs : FileSys) : Step → α
  | .first d => h (fileStream fs (resolveTrackedFiles d.trackedFileGlobs))
  | .onImage d _ => h (fileStream fs (resolveTrackedFiles d.trackedFileGlobs))
  | .onStep d previous =>
    let discarded : List Nat :=
      enc (Step.checksum h enc fs previous) ++ envStream d.environmentVariables
    let _ := discarded
    h (fileStream fs (resolveTrackedFiles d.trackedFileGlobs))

/-- `DeploymentStep.id`: `f"{self.name}_{self.checksum}"`. -/
def Step.stepId (h : List Nat → String) (enc : String → List Nat)
    (fs : FileSys) (s : Step) : String :=
  s.name ++ "_" ++ s.checksum h enc fs

/-- `DeploymentStep.result_image_name`: the same as the id. -/
def Step.resultImageName (h : List Nat → String) (enc : String → List Nat)
    (fs : FileSys) (s : Step) : String :=
  s.stepId h enc fs

/-! ## Order facts about `lexLe` -/

theorem lexLe_total : ∀ a b : List Nat, lexLe a b = true ∨ lexLe b a = true := by
  intro a
  induction a with
  | nil => intro b; left; rfl
  | cons x xs ih =>
    intro b
    cases b with
    | nil => right; rfl
    | cons y ys =>
      by_cases hxy : x < y
      · left; simp [lexLe, hxy]
      · by_cases heq : x = y
        · subst heq
          rcases ih ys with h | h
          · left; simp [lexLe, hxy, h]
          · right; simp [lexLe, hxy, h]
        · have hyx : y < x := by omega
          right; simp [lexLe, hyx]

theorem lexLe_trans :
    ∀ a b c : List Nat, lexLe a b = true → lexLe b c = true → lexLe a c = true := by
  intro a
  induction a with
  | nil => intro b c _ _; rfl
  | cons x xs ih =>
    intro b c hab hbc
    cases b with
    | nil => simp [lexLe] at hab
    | cons y ys =>
      cases c with
      | nil => simp [lexLe] at hbc
      | cons z zs =>
        simp only [lexLe] at hab hbc ⊢
        by_cases hxy : x < y
        · by_cases hyz : y < z
          · simp [show x < z by omega]
          · simp only [if_pos hxy] at hab
            by_cases hyz' : y = z
            · subst hyz'; simp [hxy]
            · simp [hyz, hyz'] at hbc
        · by_cases hxy' : x = y
          · subst hxy'
            simp only [if_neg hxy, if_pos rfl] at hab
            by_cases hxz : x < z
            · simp [hxz]
            · by_cases hxz' : x = z
              · subst hxz'
                simp only [if_neg hxz, if_pos rfl] at hbc ⊢
                exact ih ys zs hab hbc
              · simp [hxz, hxz'] at hbc
          · simp [hxy, hxy'] at hab

theorem lexLe_antisymm :
    ∀ a b : List Nat, lexLe a b = true → lexLe b a = true → a = b := by
  intro a
  induction a with
  | nil =>
    intro b _ hba
    cases b with
    | nil => rfl
    | cons y ys => simp [lexLe] at hba
  | cons x xs ih =>
    intro b hab hba
    cases b with
    | nil => simp [lexLe] at hab
    | cons y ys =>
      simp only [lexLe] at hab hba
      by_cases hxy : x < y
      · simp [show ¬ y < x by omega, show y ≠ x by omega] at hba
      · by_cases hxy' : x = y
        · subst hxy'
          simp only [if_neg hxy, if_pos rfl] at hab hba
          rw [ih ys hab hba]
        · simp [hxy, hxy'] at hab

/-! ## Facts about the hashed byte stream -/

theorem fileStream_congr (fs fs' : FileSys) :
    ∀ l : List FsPath, (∀ q ∈ l, fs q = fs' q) →
      fileStream fs l = fileStream fs' l := by
  intro l
  induction l with
  | nil => intro _; rfl
  | cons q rest ih =>
    intro hag
    simp only [fileStream]
    rw [hag q (by simp), ih (fun r hr => hag r (by simp [hr]))]

theorem fileStream_ne_of_single_change (fs fs' : FileSys) (p : FsPath) :
    ∀ l : List FsPath, l.Nodup → p ∈ l → fs p ≠ fs' p →
      (∀ q, q ≠ p → fs q = fs' q) →
      fileStream fs l ≠ fileStream fs' l := by
  intro l
  induction l with
  | nil => simp
  | cons q rest ih =>
    intro hnd hmem hne hag
    have hndq : q ∉ rest := (List.nodup_cons.mp hnd).1
    have hnd' : rest.Nodup := (List.nodup_cons.mp hnd).2
    rcases List.mem_cons.mp hmem with rfl | hmem'
    · -- the changed file is the head of the list
      have hrest : fileStream fs rest = fileStream fs' rest :=
        fileStream_congr fs fs' rest
          (fun r hr => hag r (fun hrp => hndq (hrp ▸ hr)))
      intro heq
      simp only [fileStream, List.append_assoc] at heq
      rw [hrest] at heq
      exact hne (List.append_cancel_right (List.append_cancel_left heq))
    · -- the changed file is in the tail
      have hqp : q ≠ p := fun h => hndq (h ▸ hmem')
      intro heq
      simp only [fileStream, List.append_assoc] at heq
      rw [hag q hqp] at heq
      exact ih hnd' hmem' hne hag
        (List.append_cancel_left (List.append_cancel_left heq))

/-! ## Facts about the resolved tracked-file list -/

theorem resolveTrackedFiles_nodup (globs : List TrackedGlob) :
    (resolveTrackedFiles globs).Nodup :=
  (List.perm_insertionSort _ _).symm.nodup (List.nodup_dedup _)

theorem mem_resolveTrackedFiles {p : FsPath} {globs : List TrackedGlob} :
    p ∈ resolveTrackedFiles globs ↔ p ∈ globs.flatten := by
  unfold resolveTrackedFiles
  rw [List.mem_insertionSort, List.mem_dedup]

theorem flatten_perm_of_perm {l₁ l₂ : List (List FsPath)} (h : l₁.Perm l₂) :
    l₁.flatten.Perm l₂.flatten := by
  induction h with
  | nil => exact List.Perm.refl _
  | cons x _ ih => simpa using ih.append_left x
  | swap x y l =>
    simp only [List.flatten_cons, ← List.append_assoc]
    exact (List.perm_append_comm).append_right _
  | trans _ _ ih₁ ih₂ => exact ih₁.trans ih₂

theorem resolveTrackedFiles_perm {globs globs' : List TrackedGlob}
    (h : globs.Perm globs') :
    resolveTrackedFiles globs = resolveTrackedFiles globs' := by
  haveI hTot : IsTotal FsPath (fun a b => lexLe a b = true) := ⟨lexLe_total⟩
  haveI hTrans : IsTrans FsPath (fun a b => lexLe a b = true) :=
    ⟨fun a b c => lexLe_trans a b c⟩
  haveI hAnti : IsAntisymm FsPath (fun a b => lexLe a b = true) :=
    ⟨fun a b => lexLe_antisymm a b⟩
  unfold resolveTrackedFiles
  refine List.eq_of_perm_of_sorted ?_ (List.sorted_insertionSort _ _)
    (List.sorted_insertionSort _ _)
  exact (List.perm_insertionSort _ _).trans
    (((flatten_perm_of_perm h).dedup).trans (List.perm_insertionSort _ _).symm)

/-- All tracked files of a step's chain (its own resolved files plus those of
its predecessors), the input set the spec's checksum invariant ranges over. -/
def Step.allTrackedFiles : Step → List FsPath
  | .first d => resolveTrackedFiles d.trackedFileGlobs
  | .onImage d _ => resolveTrackedFiles d.trackedFileGlobs
  | .onStep d previous =>
    resolveTrackedFiles d.trackedFileGlobs ++ previous.allTrackedFiles

/-! ## Concrete steps and file systems used in the claim instances -/

def stepA : Step := .first ⟨"A", [[[1]]], [], false⟩

def stepB : Step := .onStep ⟨"B", [[[2]]], [], false⟩ stepA

/-- File system: file `[1]` has content `[10]`, file `[2]` has content `[20]`. -/
def fsC1 : FileSys := fun p => if p = [1] then [10] else if p = [2] then [20] else []

/-- Same as `fsC1` except the content of file `[1]` is `[11]`. -/
def fsC1' : FileSys := fun p => if p = [1] then [11] else if p = [2] then [20] else []

/-! ## Claim theorems about the checksum -/

/-- C1: the claim says that with Step A (tracked files {f1}) preceding Step B
(tracked files {f2}), changing f1's content changes BOTH A's and B's
checksum, because A's checksum is an input to B's checksum computation.
The code contradicts this (and its own docstring, which says the checksum
"is based on content of the used files + checksum of the previous step"):
the hasher seeded with the predecessor's checksum is discarded by the
rebinding `sha256 = hashlib.sha256()` at line 211 of `deployments.py`, so
changing f1 changes A's checksum but leaves B's checksum unchanged for
every hash function, as this theorem shows at the concrete instance. -/
theorem checksum_predecessor_discarded_bug :
    (∀ (α : Type) (h : List Nat → α) (enc : α → List Nat),
      Step.checksum h enc fsC1' stepB = Step.checksum h enc fsC1 stepB)
    ∧ Step.checksum id id fsC1 stepA ≠ Step.checksum id id fsC1' stepA := by
  constructor
  · intro α h enc
    show h _ = h _
    exact congrArg h (by decide)
  · decide

/-- C9: the checksum is a deterministic function of the tracked files'
byte contents and root-relative paths: any two file-system states that
agree on every tracked file of the step's chain yield the same checksum. -/
theorem checksum_deterministic {α : Type} (h : List Nat → α) (enc : α → List Nat)
    (s : Step) (fs fs' : FileSys)
    (hag : ∀ p ∈ s.allTrackedFiles, fs p = fs' p) :
    Step.checksum h enc fs s = Step.checksum h enc fs' s := by
  cases s with
  | first d =>
    exact congrArg h (fileStream_congr fs fs' _ (fun q hq => hag q hq))
  | onImage d img =>
    exact congrArg h (fileStream_congr fs fs' _ (fun q hq => hag q hq))
  | onStep d previous =>
    show h _ = h _
    exact congrArg h (fileStream_congr fs fs' _
      (fun q hq => hag q (by simp [Step.allTrackedFiles, hq])))

/-- Witness for C9 at a concrete step and two file systems that agree on the
tracked file `[1]` but differ on the untracked file `[5]`. -/
theorem checksum_deterministic_witness :
    Step.checksum id id fsC1 stepA
      = Step.checksum id id (fun p => if p = [5] then [99] else fsC1 p) stepA :=
  checksum_deterministic id id stepA fsC1 _ (by decide)

/-- C8: changing the byte content of exactly one tracked file changes the
step's checksum (given that the hash is injective, i.e. collision-free),
while permuting the declared glob patterns (same resolved file set and
contents) does not change the checksum. -/
theorem checksum_content_change_and_glob_order {α : Type}
    (h : List Nat → α) (enc : α → List Nat) (hinj : Function.Injective h)
    (d : StepData) (fs fs' : FileSys) (p : FsPath)
    (hp : p ∈ d.trackedFileGlobs.flatten)
    (hne : fs p ≠ fs' p) (hag : ∀ q, q ≠ p → fs q = fs' q)
    (globs' : List TrackedGlob) (hperm : d.trackedFileGlobs.Perm globs') :
    Step.checksum h enc fs (.first d) ≠ Step.checksum h enc fs' (.first d)
    ∧ Step.checksum h enc fs (.first { d with trackedFileGlobs := globs' })
        = Step.checksum h enc fs (.first d) := by
  constructor
  · intro heq
    exact fileStream_ne_of_single_change fs fs' p _
      (resolveTrackedFiles_nodup _) (mem_resolveTrackedFiles.mpr hp) hne hag
      (hinj heq)
  · show h _ = h _
    rw [resolveTrackedFiles_perm hperm.symm]

def dC8 : StepData := ⟨"S", [[[1]], [[2]]], [], false⟩

/-- Witness for C8: concrete two-glob step, changing file `[1]`'s content
changes the checksum, and swapping the two glob patterns does not. -/
theorem checksum_content_change_and_glob_order_witness :
    Step.checksum id id fsC1 (.first dC8) ≠ Step.checksum id id fsC1' (.first dC8)
    ∧ Step.checksum id id fsC1 (.first { dC8 with trackedFileGlobs := [[[2]], [[1]]] })
        = Step.checksum id id fsC1 (.first dC8) :=
  checksum_content_change_and_glob_order id id Function.injective_id dC8
    fsC1 fsC1' [1] (by decide) (by decide)
    (fun q hq => by simp only [fsC1, fsC1', if_neg hq])
    [[[2]], [[1]]] (List.Perm.swap _ _ _)

/-! ## Execution dynamics

The observable effects of running steps and builders: the docker image
namespace, the per-step cache of saved image files, and a log of the
external actions issued (docker build/load, cache save, local script
execution, builder dispatch).  `common.IN_CICD` and `common.IN_DOCKER` are
the externally supplied booleans `cicd` and `inDocker`. -/

inductive Event where
  /-- `_run_in_docker_impl`: the image was built and committed. -/
  | dockerBuild (image : String)
  /-- `docker load -i` of a cached image file. -/
  | dockerLoad (image : String)
  /-- `save_docker_image` into the step's cache directory. -/
  | cacheSave (image : String)
  /-- `ShellScriptDeploymentStep._run_locally`: the script ran on the host. -/
  | localExec (stepName : String)
  /-- `CacheableBuilder.build`: the output directory was cleared and recreated. -/
  | resetOutput (builderName : String)
  /-- `CacheableBuilder._build` ran in the current process. -/
  | ownBuild (builderName : String)
  /-- `CacheableBuilder.build`: `docker run` re-invoking the builder inside
  the image produced by its deployment step. -/
  | dispatchDockerRun (builderName : String) (args : List String)
deriving DecidableEq

structure World where
  images : List String
  cachedImages : List String
  events : List Event
deriving DecidableEq

/-- `DeploymentStep._run_in_docker`: skip when the image already exists;
else, in CI, load a cached image file when present; else build the image
(committed under `result_image_name`) and save it to the cache only in CI
(`save_to_cache` is set only when `IN_CICD` and there was no cache hit). -/
def runInDockerStep (h : List Nat → String) (enc : String → List Nat)
    (fs : FileSys) (cicd : Bool) (s : Step) (w : World) : World :=
  if s.resultImageName h enc fs ∈ w.images then
    w
  else if cicd = true ∧ s.resultImageName h enc fs ∈ w.cachedImages then
    { w with images := w.images ++ [s.resultImageName h enc fs]
             events := w.events ++ [.dockerLoad (s.resultImageName h enc fs)] }
  else if cicd then
    { w with images := w.images ++ [s.resultImageName h enc fs]
             cachedImages := w.cachedImages ++ [s.resultImageName h enc fs]
             events := w.events ++ [.dockerBuild (s.resultImageName h enc fs),
                                    .cacheSave (s.resultImageName h enc fs)] }
  else
    { w with images := w.images ++ [s.resultImageName h enc fs]
             events := w.events ++ [.dockerBuild (s.resultImageName h enc fs)] }

/-- `ShellScriptDeploymentStep._run_locally`: the script is executed
unconditionally; there is no skip or cache check on the host path. -/
def runLocallyStep (s : Step) (w : World) : World :=
  { w with events := w.events ++ [.localExec s.name] }

/-- `DeploymentStep.run`: run the predecessor first, then run in docker or
locally depending on `runs_in_docker`. -/
def Step.run (h : List Nat → String) (enc : String → List Nat)
    (fs : FileSys) (cicd : Bool) : Step → World → World
  | .first d, w =>
    if (Step.first d).runsInDocker then
      runInDockerStep h enc fs cicd (.first d) w
    else runLocallyStep (.first d) w
  | .onImage d image, w =>
    if (Step.onImage d image).runsInDocker then
      runInDockerStep h enc fs cicd (.onImage d image) w
    else runLocallyStep (.onImage d image) w
  | .onStep d previous, w =>
    let w1 := Step.run h enc fs cicd previous w
    if (Step.onStep d previous).runsInDocker then
      runInDockerStep h enc fs cicd (.onStep d previous) w1
    else runLocallyStep (.onStep d previous) w1

/-- A degenerate but perfectly usable hash for concrete instances of the
dynamics (step identities only need to be strings). -/
def hDemo : List Nat → String := fun _ => "h"

/-! ## Lemmas about the step dynamics -/

theorem mem_images_runInDockerStep {a : String}
    (h : List Nat → String) (enc : String → List Nat) (fs : FileSys)
    (cicd : Bool) (s : Step) (w : World) (ha : a ∈ w.images) :
    a ∈ (runInDockerStep h enc fs cicd s w).images := by
  unfold runInDockerStep
  split_ifs <;> simp [ha]

theorem self_mem_images_runInDockerStep
    (h : List Nat → String) (enc : String → List Nat) (fs : FileSys)
    (cicd : Bool) (s : Step) (w : World) :
    s.resultImageName h enc fs ∈ (runInDockerStep h enc fs cicd s w).images := by
  unfold runInDockerStep
  split_ifs with h1 <;> simp [h1]

/-- Whether every step of the chain already has its result image in the
docker image namespace. -/
def chainImagesPresent (h : List Nat → String) (enc : String → List Nat)
    (fs : FileSys) : Step → World → Prop
  | .first d, w => (Step.first d).resultImageName h enc fs ∈ w.images
  | .onImage d i, w => (Step.onImage d i).resultImageName h enc fs ∈ w.images
  | .onStep d p, w =>
    (Step.onStep d p).resultImageName h enc fs ∈ w.images
    ∧ chainImagesPresent h enc fs p w

theorem chainPresent_mono (h : List Nat → String) (enc : String → List Nat)
    (fs : FileSys) :
    ∀ (s : Step) (w w' : World),
      (∀ a, a ∈ w.images → a ∈ w'.images) →
      chainImagesPresent h enc fs s w → chainImagesPresent h enc fs s w' := by
  intro s
  induction s with
  | first d => intro w w' hsub hp; exact hsub _ hp
  | onImage d i => intro w w' hsub hp; exact hsub _ hp
  | onStep d p ih =>
    intro w w' hsub hp
    exact ⟨hsub _ hp.1, ih w w' hsub hp.2⟩

theorem run_eq_of_chainPresent (h : List Nat → String) (enc : String → List Nat)
    (fs : FileSys) (cicd : Bool) :
    ∀ (s : Step) (w : World), s.runsInDocker = true →
      chainImagesPresent h enc fs s w → Step.run h enc fs cicd s w = w := by
  intro s
  induction s with
  | first d =>
    intro w hd _
    simp [Step.runsInDocker, Step.initialDockerImage] at hd
  | onImage d i =>
    intro w _ hp
    show (if (Step.onImage d i).runsInDocker = true then
            runInDockerStep h enc fs cicd (.onImage d i) w
          else runLocallyStep (.onImage d i) w) = w
    rw [if_pos (show (Step.onImage d i).runsInDocker = true from rfl)]
    unfold runInDockerStep
    rw [if_pos (show Step.resultImageName h enc fs (.onImage d i) ∈ w.images from hp)]
  | onStep d p ih =>
    intro w hd hp
    have hpd : p.runsInDocker = true := hd
    have hp' : Step.resultImageName h enc fs (.onStep d p) ∈ w.images
        ∧ chainImagesPresent h enc fs p w := hp
    show (let w1 := Step.run h enc fs cicd p w
          if (Step.onStep d p).runsInDocker = true then
            runInDockerStep h enc fs cicd (.onStep d p) w1
          else runLocallyStep (.onStep d p) w1) = w
    rw [ih w hpd hp'.2]
    show (if (Step.onStep d p).runsInDocker = true then
            runInDockerStep h enc fs cicd (.onStep d p) w
          else runLocallyStep (.onStep d p) w) = w
    rw [if_pos hd]
    unfold runInDockerStep
    rw [if_pos hp'.1]

theorem chainPresent_after_run (h : List Nat → String) (enc : String → List Nat)
    (fs : FileSys) (cicd : Bool) :
    ∀ (s : Step) (w : World), s.runsInDocker = true →
      chainImagesPresent h enc fs s (Step.run h enc fs cicd s w) := by
  intro s
  induction s with
  | first d =>
    intro w hd
    simp [Step.runsInDocker, Step.initialDockerImage] at hd
  | onImage d i =>
    intro w _
    show chainImagesPresent h enc fs (.onImage d i)
      (if (Step.onImage d i).runsInDocker = true then
         runInDockerStep h enc fs cicd (.onImage d i) w
       else runLocallyStep (.onImage d i) w)
    rw [if_pos (show (Step.onImage d i).runsInDocker = true from rfl)]
    exact self_mem_images_runInDockerStep h enc fs cicd _ w
  | onStep d p ih =>
    intro w hd
    have hpd : p.runsInDocker = true := hd
    show chainImagesPresent h enc fs (.onStep d p)
      (let w1 := Step.run h enc fs cicd p w
       if (Step.onStep d p).runsInDocker = true then
         runInDockerStep h enc fs cicd (.onStep d p) w1
       else runLocallyStep (.onStep d p) w1)
    rw [if_pos hd]
    constructor
    · exact self_mem_images_runInDockerStep h enc fs cicd _ _
    · exact chainPresent_mono h enc fs p _ _
        (fun a ha => mem_images_runInDockerStep h enc fs cicd _ _ ha)
        (ih w hpd)

/-! ## Claim theorems about the step dynamics -/

/-- C5 (amended): for a step that runs in docker, `run()` is idempotent —
after one `run()` every chain member's image exists, so a second `run()`
changes nothing (the image-name check skips the build).  The original
claim also asserted this for host-run steps, which is refuted by
`run_host_step_twice_executes_twice` below. -/
theorem run_idempotent_when_in_docker (h : List Nat → String)
    (enc : String → List Nat) (fs : FileSys) (cicd : Bool)
    (s : Step) (w : World) (hd : s.runsInDocker = true) :
    Step.run h enc fs cicd s (Step.run h enc fs cicd s w)
      = Step.run h enc fs cicd s w :=
  run_eq_of_chainPresent h enc fs cicd s _ hd
    (chainPresent_after_run h enc fs cicd s w hd)

def stepDock : Step := .onImage ⟨"d", [], [], false⟩ "debian"

/-- Witness for the amended C5 at a concrete docker step. -/
theorem run_idempotent_when_in_docker_witness :
    Step.runsInDocker stepDock = true
    ∧ Step.run hDemo strBytes fsC1 false stepDock
        (Step.run hDemo strBytes fsC1 false stepDock ⟨[], [], []⟩)
      = Step.run hDemo strBytes fsC1 false stepDock ⟨[], [], []⟩ :=
  ⟨rfl, run_idempotent_when_in_docker hDemo strBytes fsC1 false stepDock
    ⟨[], [], []⟩ rfl⟩

def stepLocal : Step := .first ⟨"loc", [], [], false⟩

/-- C5 (counterexample): for a host-run step the claim "running a Step twice
performs the expensive action exactly once" is false — the shell script is
executed unconditionally on each `run()`, so two runs execute it twice. -/
theorem run_host_step_twice_executes_twice :
    ((Step.run hDemo strBytes fsC1 false stepLocal
        (Step.run hDemo strBytes fsC1 false stepLocal ⟨[], [], []⟩)).events.count
      (.localExec "loc")) = 2 := by decide

/-- C6: the isolated-context run follows the decision order: (1) if the
image named by the step's id exists, nothing happens (skip and reuse);
(2) else under CI with a cache entry, the image is loaded from the cache
(no build, cache unchanged); (3) else the image is built, and it is saved
to the cache if and only if in CI mode. -/
theorem runInDockerStep_decision_order (h : List Nat → String)
    (enc : String → List Nat) (fs : FileSys) (cicd : Bool)
    (s : Step) (w : World) :
    (s.resultImageName h enc fs ∈ w.images →
      runInDockerStep h enc fs cicd s w = w)
    ∧ (s.resultImageName h enc fs ∉ w.images → cicd = true →
        s.resultImageName h enc fs ∈ w.cachedImages →
        runInDockerStep h enc fs cicd s w =
          { w with images := w.images ++ [s.resultImageName h enc fs]
                   events := w.events ++ [.dockerLoad (s.resultImageName h enc fs)] })
    ∧ (s.resultImageName h enc fs ∉ w.images →
        ¬(cicd = true ∧ s.resultImageName h enc fs ∈ w.cachedImages) →
        (runInDockerStep h enc fs cicd s w).events
            = w.events ++ [.dockerBuild (s.resultImageName h enc fs)]
                ++ (if cicd then [.cacheSave (s.resultImageName h enc fs)] else [])
          ∧ (runInDockerStep h enc fs cicd s w).cachedImages
            = (if cicd then w.cachedImages ++ [s.resultImageName h enc fs]
               else w.cachedImages)) := by
  refine ⟨?_, ?_, ?_⟩
  · intro hin
    unfold runInDockerStep
    rw [if_pos hin]
  · intro hnin hc hcache
    unfold runInDockerStep
    rw [if_neg hnin, if_pos ⟨hc, hcache⟩]
  · intro hnin hnc
    unfold runInDockerStep
    rw [if_neg hnin, if_neg hnc]
    cases cicd <;> simp

/-- Witness for C6 at a concrete step in the build-then-save branch:
no image, empty cache, CI mode. -/
theorem runInDockerStep_decision_order_witness :
    (runInDockerStep hDemo strBytes fsC1 true stepDock ⟨[], [], []⟩).events
        = [.dockerBuild (stepDock.resultImageName hDemo strBytes fsC1),
           .cacheSave (stepDock.resultImageName hDemo strBytes fsC1)]
    ∧ (runInDockerStep hDemo strBytes fsC1 true stepDock ⟨[], [], []⟩).cachedImages
        = [stepDock.resultImageName hDemo strBytes fsC1] := by
  have := (runInDockerStep_decision_order hDemo strBytes fsC1 true stepDock
    ⟨[], [], []⟩).2.2 (by decide) (by decide)
  simpa using this

/-! ## The cacheable builder -/

/-- The `BuilderInput` dataclass (the `default` field is already folded into
the resolved input values, as `CacheableBuilder.create` does). -/
structure BuilderInput where
  name : String
  dest : String
  action : Option String
  required : Bool
deriving DecidableEq

/-- A Python value stored in the builder's `_input_values` dict. -/
inductive PyVal where
  | none
  | bool (b : Bool)
  | str (s : String)
deriving DecidableEq

/-- Python truthiness, used by `if not value`. -/
def PyVal.truthy : PyVal → Bool
  | .none => false
  | .bool b => b
  | .str s => s ≠ ""

/-- The string appended to the regenerated command line for a value. -/
def PyVal.asString : PyVal → String
  | .none => "None"
  | .bool b => if b then "True" else "False"
  | .str s => s

inductive BuildError where
  /-- `ValueError(f"Input argument {name} for the builder {NAME} is required but not set.")` -/
  | requiredInputNotSet (inputName : String) (builderName : String)
deriving DecidableEq

/-- `i.action and i.action.startswith("store_")`. -/
def actionIsStore : Option String → Bool
  | Option.none => false
  | some a => a.toList.take 6 == "store_".toList

/-- The input-processing loop of `CacheableBuilder.build` (lines 882-896):
`None` values are skipped unless required (then `ValueError`); `store_*`
actions contribute the flag name only when the value is truthy; other
inputs contribute the flag name and the value. -/
def commandArgsLoop (builderName : String) (vals : String → PyVal) :
    List BuilderInput → List String → Except BuildError (List String)
  | [], acc => .ok acc
  | i :: rest, acc =>
    match vals i.dest with
    | .none =>
      if i.required then .error (.requiredInputNotSet i.name builderName)
      else commandArgsLoop builderName vals rest acc
    | v =>
      if actionIsStore i.action then
        if v.truthy then commandArgsLoop builderName vals rest (acc ++ [i.name])
        else commandArgsLoop builderName vals rest acc
      else commandArgsLoop builderName vals rest (acc ++ [i.name, v.asString])

/-- The full re-invocation command line built before the docker dispatch. -/
def builderCommandArgs (builderName : String) (inputs : List BuilderInput)
    (vals : String → PyVal) : Except BuildError (List String) :=
  commandArgsLoop builderName vals inputs
    ["python3", "/scalyr-agent-2/agent_build/scripts/builder_helper.py", builderName]

mutual
/-- A `CacheableBuilder` instance: class-level `NAME`, `DEPLOYMENT_STEP`,
`INPUT`, the resolved `_input_values`, and the `required_builders` set up by
`_initialize` (`None` is modelled as the empty list). -/
inductive Builder where
  | mk (name : String) (deploymentStep : Option Step) (inputs : List BuilderInput)
       (inputValues : String → PyVal) (requiredBuilders : BuilderList)

inductive BuilderList where
  | nil
  | cons (head : Builder) (tail : BuilderList)
end

def Builder.name : Builder → String
  | .mk n _ _ _ _ => n

def Builder.deploymentStep : Builder → Option Step
  | .mk _ ds _ _ _ => ds

/-- `runs_in_docker` of the builder: its deployment step's value when the
step exists, else `False` (lines 833-836). -/
def stepRunsInDocker : Option Step → Bool
  | some s => s.runsInDocker
  | Option.none => false

/-- `if self.deployment_step: self.deployment_step.run()` (lines 839-840). -/
def runOptStep (h : List Nat → String) (enc : String → List Nat)
    (fs : FileSys) (cicd : Bool) : Option Step → World → World
  | some s, w => Step.run h enc fs cicd s w
  | Option.none, w => w

/-- The behaviour of `CacheableBuilder.build` when `common.IN_DOCKER` is
true, i.e. in the process re-invoked inside the container: the output
directory is cleared and recreated, then `_build` runs directly (the
`else` branch at lines 850-853). -/
def Builder.buildInDocker (b : Builder) (w : World) : World × Option BuildError :=
  match b with
  | .mk name _ _ _ _ =>
    let w0 : World := { w with events := w.events ++ [.resetOutput name] }
    ({ w0 with events := w0.events ++ [.ownBuild name] }, Option.none)

mutual
/-- `CacheableBuilder.build`.  Note that the `locally` parameter is accepted
but never read by the body (the dispatch decision only checks
`common.IN_DOCKER` and whether the deployment step runs in docker).  The
docker dispatch re-invokes the builder in a fresh process with
`AGENT_BUILD_IN_DOCKER=1`; that inner invocation is `Builder.buildInDocker`,
and `Builder.build_in_docker_eq` below checks that `buildInDocker` agrees
with `build` when `inDocker = true`. -/
def Builder.build (h : List Nat → String) (enc : String → List Nat)
    (fs : FileSys) (locally inDocker cicd : Bool) (b : Builder) (w : World) :
    World × Option BuildError :=
  match b with
  | .mk name ds inputs vals reqs =>
    -- clear and recreate the output directory
    let w0 : World := { w with events := w.events ++ [.resetOutput name] }
    if inDocker = false then
      -- run own deployment step, then build required builders in order
      let w1 : World := runOptStep h enc fs cicd ds w0
      match Builder.buildList h enc fs cicd reqs w1 with
      | (w2, some e) => (w2, some e)
      | (w2, Option.none) =>
        if stepRunsInDocker ds = false then
          -- not meant for docker: run `_build` right here
          ({ w2 with events := w2.events ++ [.ownBuild name] }, Option.none)
        else
          -- regenerate the command line (validating inputs) and `docker run`
          -- the same builder inside the step's result image
          match builderCommandArgs name inputs vals with
          | .error e => (w2, some e)
          | .ok args =>
            Builder.buildInDocker (.mk name ds inputs vals reqs)
              { w2 with events := w2.events ++ [.dispatchDockerRun name args] }
    else
      -- already in docker: run `_build` directly
      ({ w0 with events := w0.events ++ [.ownBuild name] }, Option.none)

/-- The `for builder in self.required_builders: builder.build()` loop; a
raised exception propagates and stops the loop. -/
def Builder.buildList (h : List Nat → String) (enc : String → List Nat)
    (fs : FileSys) (cicd : Bool) (l : BuilderList) (w : World) :
    World × Option BuildError :=
  match l with
  | .nil => (w, Option.none)
  | .cons b rest =>
    match Builder.build h enc fs false false cicd b w with
    | (w', some e) => (w', some e)
    | (w', Option.none) => Builder.buildList h enc fs cicd rest w'
end

/-- The inner invocation used for the docker dispatch is exactly `build`
with `inDocker = true`. -/
theorem Builder.build_in_docker_eq (h : List Nat → String)
    (enc : String → List Nat) (fs : FileSys) (locally cicd : Bool)
    (b : Builder) (w : World) :
    Builder.build h enc fs locally true cicd b w = Builder.buildInDocker b w := by
  cases b with
  | mk name ds inputs vals reqs => rfl

/-! ## Concrete builders used in the claim instances -/

def pvNone : String → PyVal := fun _ => PyVal.none

/-- A builder whose deployment step runs in docker. -/
def bDocker : Builder := .mk "B2" (some stepDock) [] pvNone .nil

/-- A required input (`required=True`, no action). -/
def inputReq : BuilderInput := ⟨"--x", "x", Option.none, true⟩

/-- A host-run builder with a required input whose value is `None`. -/
def bLocMissing : Builder := .mk "B3" Option.none [inputReq] pvNone .nil

/-- A docker-dispatching builder with a required input whose value is `None`. -/
def bDockMissing : Builder := .mk "B3d" (some stepDock) [inputReq] pvNone .nil

def bX : Builder := .mk "X" Option.none [] pvNone .nil
def bY : Builder := .mk "Y" Option.none [] pvNone .nil
def bParent : Builder := .mk "P" Option.none [] pvNone (.cons bX (.cons bY .nil))

/-! ## Claim theorems about the builder -/

/-- C2: the claim (and the docstring of `build`) says `locally=True` always
forces direct `_build` execution and never issues a container re-dispatch.
The code never reads the `locally` parameter: the result of `build` is
identical for any value of `locally` (first conjunct), and with
`locally=True`, a builder whose deployment step runs in docker still
issues the `docker run` re-dispatch (second conjunct). -/
theorem build_ignores_locally_bug :
    (∀ (h : List Nat → String) (enc : String → List Nat) (fs : FileSys)
       (l₁ l₂ inDocker cicd : Bool) (b : Builder) (w : World),
      Builder.build h enc fs l₁ inDocker cicd b w
        = Builder.build h enc fs l₂ inDocker cicd b w)
    ∧ Event.dispatchDockerRun "B2"
        ["python3", "/scalyr-agent-2/agent_build/scripts/builder_helper.py", "B2"]
      ∈ (Builder.build hDemo strBytes fsC1 true false false bDocker
          ⟨[], [], []⟩).1.events := by
  constructor
  · intro h enc fs l₁ l₂ inDocker cicd b w
    cases b with
    | mk name ds inputs vals reqs => unfold Builder.build; rfl
  · decide

/-- C3 (counterexample): the claim says a missing required input makes
`build()` raise a configuration error before any side effect beyond the
output-directory reset.  For a host-run builder the input loop is never
reached: `build` completes without any error and `_build` executes. -/
theorem build_missing_required_no_error :
    (Builder.build hDemo strBytes fsC1 false false false bLocMissing
        ⟨[], [], []⟩).2 = Option.none
    ∧ Event.ownBuild "B3"
      ∈ (Builder.build hDemo strBytes fsC1 false false false bLocMissing
          ⟨[], [], []⟩).1.events := by
  decide

/-- C3 (amended): the missing-required-input `ValueError` is raised only on
the docker-dispatch path (deployment step runs in docker, process not in
docker), and it is raised after the output-directory reset, after the
deployment step has run, and after the required builders have been built:
the error result carries the world in which those effects already
happened. -/
theorem build_missing_required_input_late (h : List Nat → String)
    (enc : String → List Nat) (fs : FileSys) (cicd : Bool) (name : String)
    (s : Step) (inputs : List BuilderInput) (vals : String → PyVal)
    (reqs : BuilderList) (w w2 : World) (e : BuildError)
    (hdock : s.runsInDocker = true)
    (herr : builderCommandArgs name inputs vals = .error e)
    (hreq : Builder.buildList h enc fs cicd reqs
        (Step.run h enc fs cicd s
          { w with events := w.events ++ [.resetOutput name] }) = (w2, Option.none)) :
    Builder.build h enc fs false false cicd (.mk name (some s) inputs vals reqs) w
      = (w2, some e) := by
  unfold Builder.build
  simp [runOptStep, stepRunsInDocker, hreq, hdock, herr]

def w2C3 : World := Step.run hDemo strBytes fsC1 false stepDock
  ⟨[], [], [.resetOutput "B3d"]⟩

/-- Witness for the amended C3 at a concrete docker-dispatching builder. -/
theorem build_missing_required_input_late_witness :
    Builder.build hDemo strBytes fsC1 false false false bDockMissing ⟨[], [], []⟩
      = (w2C3, some (.requiredInputNotSet "--x" "B3d")) :=
  build_missing_required_input_late hDemo strBytes fsC1 false "B3d" stepDock
    [inputReq] pvNone .nil ⟨[], [], []⟩ w2C3 (.requiredInputNotSet "--x" "B3d")
    rfl rfl rfl

/-- C7: with required builders `[X, Y]` and the process not in docker,
`build` runs the deployment step, then X's build on the resulting world,
then Y's build on X's result, then its own `_build`:  if X's build raises,
the whole build returns exactly X's failing state and error — Y is never
invoked and `_build` never runs (first conjunct); if X and Y both succeed
and the builder itself is host-run, `_build` runs last, on Y's resulting
world (second conjunct); if X and Y both succeed and the builder's
deployment step runs in docker, the `docker run` re-dispatch is issued on
Y's resulting world and `_build` executes on the inner invocation, so the
`ownBuild` effect again lands strictly after both X's and Y's completed
builds (third conjunct). -/
theorem build_sequences_required_builders (h : List Nat → String)
    (enc : String → List Nat) (fs : FileSys) (cicd : Bool) (name : String)
    (ds : Option Step) (inputs : List BuilderInput) (vals : String → PyVal)
    (X Y : Builder) (w w1 : World)
    (hw1 : w1 = runOptStep h enc fs cicd ds
      { w with events := w.events ++ [.resetOutput name] }) :
    (∀ wX e, Builder.build h enc fs false false cicd X w1 = (wX, some e) →
      Builder.build h enc fs false false cicd
          (.mk name ds inputs vals (.cons X (.cons Y .nil))) w = (wX, some e))
    ∧ (∀ wX wY, Builder.build h enc fs false false cicd X w1 = (wX, Option.none) →
        Builder.build h enc fs false false cicd Y wX = (wY, Option.none) →
        stepRunsInDocker ds = false →
        Builder.build h enc fs false false cicd
            (.mk name ds inputs vals (.cons X (.cons Y .nil))) w
          = ({ wY with events := wY.events ++ [.ownBuild name] }, Option.none))
    ∧ (∀ wX wY args, Builder.build h enc fs false false cicd X w1 = (wX, Option.none) →
        Builder.build h enc fs false false cicd Y wX = (wY, Option.none) →
        stepRunsInDocker ds = true →
        builderCommandArgs name inputs vals = .ok args →
        Builder.build h enc fs false false cicd
            (.mk name ds inputs vals (.cons X (.cons Y .nil))) w
          = ({ wY with events := wY.events
                ++ [.dispatchDockerRun name args, .resetOutput name,
                    .ownBuild name] }, Option.none)) := by
  subst hw1
  refine ⟨?_, ?_, ?_⟩
  · intro wX e hX
    unfold Builder.build Builder.buildList
    simp [hX]
  · intro wX wY hX hY hnd
    unfold Builder.build Builder.buildList
    simp [Builder.buildList, hX, hY, hnd]
  · intro wX wY args hX hY hsd hargs
    unfold Builder.build Builder.buildList
    simp [Builder.buildList, Builder.buildInDocker, hX, hY, hsd, hargs]

/-- A builder whose deployment step runs in docker, with required builders
`[X, Y]`. -/
def bParentDock : Builder := .mk "PD" (some stepDock) [] pvNone
  (.cons bX (.cons bY .nil))

/-- Witness for C7 on the success path with concrete trivial X and Y, for a
host-run parent (second conjunct) and for a parent whose deployment step
runs in docker (third conjunct: X and Y complete, then the re-dispatch and
the inner `_build`). -/
theorem build_sequences_required_builders_witness :
    Builder.build hDemo strBytes fsC1 false false false bParent ⟨[], [], []⟩
      = (⟨[], [], [.resetOutput "P", .resetOutput "X", .ownBuild "X",
                   .resetOutput "Y", .ownBuild "Y", .ownBuild "P"]⟩, Option.none)
    ∧ Builder.build hDemo strBytes fsC1 false false false bParentDock ⟨[], [], []⟩
      = (⟨["d_h"], [],
          [.resetOutput "PD", .dockerBuild "d_h", .resetOutput "X", .ownBuild "X",
           .resetOutput "Y", .ownBuild "Y",
           .dispatchDockerRun "PD"
             ["python3", "/scalyr-agent-2/agent_build/scripts/builder_helper.py", "PD"],
           .resetOutput "PD", .ownBuild "PD"]⟩, Option.none) :=
  ⟨(build_sequences_required_builders hDemo strBytes fsC1 false "P" Option.none
      [] pvNone bX bY ⟨[], [], []⟩ _ rfl).2.1
    ⟨[], [], [.resetOutput "P", .resetOutput "X", .ownBuild "X"]⟩
    ⟨[], [], [.resetOutput "P", .resetOutput "X", .ownBuild "X",
              .resetOutput "Y", .ownBuild "Y"]⟩
    (by decide) (by decide) rfl,
   (build_sequences_required_builders hDemo strBytes fsC1 false "PD" (some stepDock)
      [] pvNone bX bY ⟨[], [], []⟩ _ rfl).2.2
    ⟨["d_h"], [], [.resetOutput "PD", .dockerBuild "d_h",
                   .resetOutput "X", .ownBuild "X"]⟩
    ⟨["d_h"], [], [.resetOutput "PD", .dockerBuild "d_h",
                   .resetOutput "X", .ownBuild "X",
                   .resetOutput "Y", .ownBuild "Y"]⟩
    ["python3", "/scalyr-agent-2/agent_build/scripts/builder_helper.py", "PD"]
    (by decide) (by decide) rfl rfl⟩

/-! ## Cacheable-step collection -/

/-- `DeploymentStep.get_all_cacheable_steps`: this step when `cacheable`,
followed by the cacheable steps of the predecessor chain. -/
def Step.getAllCacheableSteps : Step → List Step
  | .first d => if d.cacheable then [.first d] else []
  | .onImage d i => if d.cacheable then [.onImage d i] else []
  | .onStep d p =>
    (if d.cacheable then [Step.onStep d p] else []) ++ p.getAllCacheableSteps

inductive PyError where
  /-- `AttributeError: 'NoneType' object has no attribute ...` -/
  | attributeError
deriving DecidableEq

mutual
/-- `CacheableBuilder.get_all_cacheable_deployment_steps`: unconditionally
evaluates `cls.DEPLOYMENT_STEP.get_all_cacheable_steps()` — when
`DEPLOYMENT_STEP` is `None` this is an attribute access on `None` and
raises `AttributeError` — then extends with the required builders'
cacheable steps. -/
def Builder.getAllCacheableDeploymentSteps : Builder → Except PyError (List Step)
  | .mk _ ds _ _ reqs =>
    match ds with
    | Option.none => .error .attributeError
    | some s =>
      match BuilderList.getAllCacheableDeploymentStepsAux reqs with
      | .error e => .error e
      | .ok rest => .ok (s.getAllCacheableSteps ++ rest)

def BuilderList.getAllCacheableDeploymentStepsAux :
    BuilderList → Except PyError (List Step)
  | .nil => .ok []
  | .cons b rest =>
    match Builder.getAllCacheableDeploymentSteps b with
    | .error e => .error e
    | .ok x =>
      match BuilderList.getAllCacheableDeploymentStepsAux rest with
      | .error e => .error e
      | .ok y => .ok (x ++ y)
end

/-- C10: for a builder whose `DEPLOYMENT_STEP` is left at its default
`None`, `get_all_cacheable_deployment_steps()` raises `AttributeError`
instead of returning the cacheable steps of its required builders. -/
theorem getAllCacheableDeploymentSteps_none_raises (b : Builder)
    (hds : b.deploymentStep = Option.none) :
    Builder.getAllCacheableDeploymentSteps b = .error .attributeError := by
  cases b with
  | mk n ds i v reqs =>
    cases ds with
    | none => rfl
    | some s => simp [Builder.deploymentStep] at hds

def stepCacheable : Step := .onImage ⟨"c", [], [], true⟩ "debian"
def bWithCacheStep : Builder := .mk "C10X" (some stepCacheable) [] pvNone .nil
def bNoStep : Builder := .mk "C10P" Option.none [] pvNone (.cons bWithCacheStep .nil)

/-- Witness for C10: the required builder contributes a cacheable step, yet
the call raises. -/
theorem getAllCacheableDeploymentSteps_none_raises_witness :
    Builder.getAllCacheableDeploymentSteps bNoStep = .error .attributeError :=
  getAllCacheableDeploymentSteps_none_raises bNoStep rfl

/-! ## The step cache (`_save_to_cache` / `_restore_from_cache`)

A small file-system model: absolute paths are lists of components; an
object at a path is a regular file (with byte content) or a directory
(with its flat entry listing).  The current working directory is the root,
so a bare relative path `key` resolves to `[key]`. -/

inductive FsObj where
  | file (content : List Nat)
  | dir (entries : List (String × List Nat))
deriving DecidableEq

/-- A path in the cache file-system model: a list of components. -/
abbrev ObjPath := List String

structure FileStore where
  entries : List (ObjPath × FsObj)
deriving DecidableEq

def FileStore.lookup (st : FileStore) (p : ObjPath) : Option FsObj :=
  (st.entries.filter (fun kv => kv.1 = p)).head?.map Prod.snd

def FileStore.insert (st : FileStore) (p : ObjPath) (o : FsObj) : FileStore :=
  ⟨(p, o) :: st.entries.filter (fun kv => kv.1 ≠ p)⟩

/-- `DeploymentStep._save_to_cache(key, path)`:
`full_path = self.cache_directory / key`; a directory is copied with
`shutil.copytree(path, full_path)`, but a regular file is copied with
`shutil.copy2(path, key)` — the destination is the bare `key`, a relative
path resolved against the current working directory, not `full_path`. -/
def saveToCache (cacheDirectory : ObjPath) (st : FileStore) (key : String)
    (path : ObjPath) : FileStore :=
  match st.lookup path with
  | some (.dir es) => st.insert (cacheDirectory ++ [key]) (.dir es)
  | some (.file c) => st.insert [key] (.file c)
  | Option.none => st

/-- `DeploymentStep._restore_from_cache(key, path)`: if
`self.cache_directory / key` exists, copy it (tree or file) to `path` and
return `True`, else return `False`. -/
def restoreFromCache (cacheDirectory : ObjPath) (st : FileStore) (key : String)
    (dest : ObjPath) : FileStore × Bool :=
  match st.lookup (cacheDirectory ++ [key]) with
  | some o => (st.insert dest o, true)
  | Option.none => (st, false)

/-- The initial store for the C4 instance: a regular file with content
`[7]` at the working path `["work", "artifact"]`. -/
def stC4 : FileStore := ⟨[(["work", "artifact"], .file [7])]⟩

/-- C4: the claim says that after `_save_to_cache(key, path)`, whether
`path` is a file or a directory, the object is stored under the step's
cache directory at `key`, so `_restore_from_cache(key, dest)` returns
`True` and materializes the saved content.  For a regular file this is
false: `_save_to_cache` computes `full_path` but then calls
`shutil.copy2(path, key)`, dropping the file at the bare relative path
`key` in the current working directory; the subsequent restore finds
nothing under the cache directory and returns `False` (while the directory
case does round-trip).  This demonstrates the failing file case at a
concrete instance. -/
theorem saveToCache_file_roundtrip_fails :
    (restoreFromCache ["cache", "step1"]
        (saveToCache ["cache", "step1"] stC4 "k" ["work", "artifact"])
        "k" ["dest"]).2 = false
    ∧ (saveToCache ["cache", "step1"] stC4 "k" ["work", "artifact"]).lookup ["k"]
        = some (.file [7])
    ∧ (saveToCache ["cache", "step1"] stC4 "k" ["work", "artifact"]).lookup
        ["cache", "step1", "k"] = Option.none := by
  decide

end Deployments
